import Mathlib

/-!
Shallow embedding of the orchestration core of `mandelbrot.py` (strip/chunk
partitioning, worker colorization, strip assembly and tiling, checkpointing,
interactive control channel, pyramid level geometry, and tiles-directory
setup), together with theorems settling the specification claims about it.

Conventions of the embedding:
- machine integers are modelled as `Nat`; exact rational arithmetic (`ℚ`)
  stands in for the floating-point normalization in `worker`;
- effectful code is modelled by explicit state passing: the durable states
  the checkpoint file passes through become a `List` of states, the keyboard
  listener becomes a step function on a record of the shared flags, and the
  per-strip body of the main loop becomes a function from its observations
  of the shared pause/save flags to a record of its externally visible
  effects.
-/

namespace Mandelbrot

/-! ## Module-level render constants (mandelbrot.py lines 45-47, 254-257) -/

def max_iter : ℕ := 750

def color_reference : ℕ := 100

def TILE_SIZE : ℕ := 256

/-- `ncol = 64` (line 257): the column width of one chunk band. -/
def ncol : ℕ := 64

/-- Image width at scale `s`: `nx = im_scale*10240` (line 250). -/
def nx_of_scale (s : ℕ) : ℕ := s * 10240

/-! ## Chunk grid (mandelbrot.py lines 257-261)

```
fx = nx//ncol
nc = fx + (fx*ncol < nx)
bx = np.arange(nc, dtype=int)*ncol
ex = np.clip((np.arange(nc, dtype=int)+1)*ncol, 0, nx)
```

The grid is parametrized by the image width `nx` (in the source `nx` is the
module-level value `im_scale*10240`). `np.clip(v, 0, nx)` on the nonnegative
value `(i+1)*ncol` is `min ((i+1)*ncol) nx`. -/

def fx (nx : ℕ) : ℕ := nx / ncol

def nc (nx : ℕ) : ℕ := fx nx + (if fx nx * ncol < nx then 1 else 0)

def bx (_nx i : ℕ) : ℕ := i * ncol

def ex (nx i : ℕ) : ℕ := min ((i + 1) * ncol) nx

/-! ## Chunk producer (mandelbrot.py lines 276-281)

`feeder` enumerates, for the active strip, one work item per chunk: the
chunk index, its column sub-grid `x[bx[i]:ex[i]]` and the strip's row
sub-grid `y[strip_y_start:strip_y_end]`.  We record the index bounds of the
meshgrid it builds. -/

structure ChunkJob where
  idx : ℕ
  x_lo : ℕ
  x_hi : ℕ
  y_lo : ℕ
  y_hi : ℕ
deriving DecidableEq

def feeder (nx strip_y_start strip_y_end : ℕ) : List ChunkJob :=
  (List.range (nc nx)).map
    (fun i => ⟨i, bx nx i, ex nx i, strip_y_start, strip_y_end⟩)

/-! ## Worker colorization (mandelbrot.py lines 264-272)

```
coldata = mandelbrot.calc_val(*args)
chunk_normalized = np.clip((coldata / color_max) * 255, 0, 255).astype(np.uint8)
rgb_chunk = lut[chunk_normalized]
```

The scalar kernel `mandelbrot.calc_val` is an external collaborator, so the
worker is modelled per scalar value `v : ℚ`.  `color_max` is
`float(color_reference)` (line 367).  `np.clip(a, lo, hi)` is
`min (max a lo) hi`, and `.astype(np.uint8)` truncates the clipped
(nonnegative) float toward zero, i.e. takes the floor.  The shared 256×3
color table is an abstract function `lut`. -/

def color_max : ℚ := (color_reference : ℚ)

def clip (x lo hi : ℚ) : ℚ := min (max x lo) hi

/-- The byte computed by the worker for one scalar field value. -/
def normByte (v : ℚ) : ℕ := (⌊clip (v / color_max * 255) 0 255⌋).toNat

/-- The byte as the spec words it: `clamp(value / colorReference, 0, 1) × 255`
(with the same integer truncation).  Stated for comparison with `normByte`. -/
def normByteSpec (v : ℚ) : ℕ := (⌊clip (v / color_max) 0 1 * 255⌋).toNat

/-- The RGB value the worker emits for one scalar field value. -/
def worker_pixel (lut : ℕ → ℕ × ℕ × ℕ) (v : ℚ) : ℕ × ℕ × ℕ := lut (normByte v)

/-! ## Checkpoint manager (mandelbrot.py lines 56-79)

`save_progress` removes any existing save file, then opens the path for
writing (which durably truncates it) and serializes the record.
`save_progress_trace old r` lists the durable states the checkpoint file
passes through during one save, starting from state `old`:

- `os.path.exists` / `os.remove` (lines 59-60): if a file exists it is
  deleted, leaving the durable state `absent`;
- `open(SAVE_FILE, 'w')` (line 69): creates/truncates the file, leaving the
  durable state `truncated` (present but holding no complete record);
- `json.dump(progress_data, f)` (line 70): leaves the complete new record.

`load_progress` returns `None` when the file is absent (line 73-74) and
wraps the open/parse in `try`/bare-`except` returning `None` (lines 75-79);
its possible outcomes of reading the file are modelled by `SaveFileRead`,
where `parsed r` means the file was readable and parsed to the record `r`.
The model is a total function: no input raises. -/

structure ProgressData where
  im_scale : ℕ
  current_strip : ℕ
  total_strips : ℕ
  max_iter : ℕ
  color_reference : ℕ
deriving DecidableEq

inductive CheckpointFile where
  | absent
  | truncated
  | complete (r : ProgressData)
deriving DecidableEq

def save_progress_trace (old : CheckpointFile) (r : ProgressData) :
    List CheckpointFile :=
  [old]
    ++ (if old = CheckpointFile.absent then [] else [CheckpointFile.absent])
    ++ [CheckpointFile.truncated, CheckpointFile.complete r]

inductive SaveFileRead where
  | absent
  | unreadable
  | malformed
  | parsed (r : ProgressData)
deriving DecidableEq

def load_progress : SaveFileRead → Option ProgressData
  | SaveFileRead.absent => none
  | SaveFileRead.unreadable => none
  | SaveFileRead.malformed => none
  | SaveFileRead.parsed r => some r

/-! ## Control channel (mandelbrot.py lines 81-126)

The keyboard listener mutates the shared flags `paused`, `exit_confirm`,
`save_requested`; pressing `e` twice, or Ctrl+C, calls `os._exit(0)`
(modelled by the `terminated` flag, after which no further transition
happens).  `input_listener_step` is the transition the listener performs
for one key. -/

structure CtlState where
  paused : Bool
  exit_confirm : Bool
  save_requested : Bool
  terminated : Bool
deriving DecidableEq

inductive Key where
  | p
  | s
  | e
  | ctrlC
  | other
deriving DecidableEq

def input_listener_step (st : CtlState) (k : Key) : CtlState :=
  if st.terminated then st
  else
    match k with
    | Key.p =>
        if st.exit_confirm then { st with exit_confirm := false, paused := false }
        else if st.paused then { st with paused := false }
        else { st with paused := true }
    | Key.s =>
        if st.paused then { st with save_requested := true } else st
    | Key.e =>
        if st.exit_confirm then { st with terminated := true }
        else { st with exit_confirm := true, paused := true }
    | Key.ctrlC => { st with terminated := true }
    | Key.other => st

/-! ## wait_if_paused (mandelbrot.py lines 128-135)

```
while paused.value == 1:
    if save_requested.value == 1:
        return True
    threading.Event().wait(0.1)
return False
```

Each loop iteration reads the pair `(paused, save_requested)`; the function
returns `True` exactly when `save_requested` is observed set while still
paused.  The observed sequence of flag pairs is the input list. -/

def wait_if_paused : List (Bool × Bool) → Bool
  | [] => false
  | (p, s) :: rest => if p then (if s then true else wait_if_paused rest) else false

/-! ## Per-strip body of the main loop (mandelbrot.py lines 417-540)

One iteration of `for strip_idx in range(start_strip, strips_per_height)`.
Its observations of the shared flags are inputs:

- `obs j` is the pause/save observation stream of the `wait_if_paused()`
  call made after collecting the `j`-th chunk result (line 435);
- `save_after_loop` is the value of `save_requested` read at line 456 after
  the chunk loop collected all `nc` results with no save observed;
- `save_after_assembly` is the value read at line 532 after the normal
  assembly path.

Externally visible effects of the iteration (`StripOutcome`):

- if some `wait_if_paused` in the chunk loop returns true (first such `j`),
  the code terminates workers and feeder, deletes every `temp_chunk` file,
  writes the checkpoint `(im_scale, strip_idx, strips_per_height)` and
  breaks out to exit (lines 437-451): `j+1` chunk results were computed and
  all are discarded, nothing is assembled, no tile is persisted;
- otherwise, if `save_requested` is seen at line 456, or the normal path
  runs (assembling, flipping via `image_processor.flip_vertical`, slicing
  via `image_processor.split_into_tiles`, persisting each tile at
  `(max_level, tile_x_idx, strips_per_height - 1 - strip_idx)`, lines
  456-496 and 498-538), the strip is fully assembled and its tiles
  persisted; a checkpoint naming `strip_idx + 1` is written and the process
  exits when a save was requested (lines 491, 533), else no checkpoint is
  written and the loop continues.

`image_processor.split_into_tiles` is an external kernel; the number of
tiles it returns for one strip is the parameter `ntiles`, and `max_level`
is the base pyramid level (line 384). -/

def tile_row (strips_per_height strip_idx : ℕ) : ℕ :=
  strips_per_height - 1 - strip_idx

/-- The `(level, col, row)` triples persisted for one completed strip
(lines 477-479 and 518-520: `save_tile(tile_data, max_level, tile_x_idx,
tile_row, tiles_dir)` over `enumerate(tiles)`). -/
def strip_tiles (max_level strips_per_height strip_idx ntiles : ℕ) :
    List (ℕ × ℕ × ℕ) :=
  (List.range ntiles).map
    (fun tile_x_idx => (max_level, tile_x_idx, tile_row strips_per_height strip_idx))

structure StripOutcome where
  chunksComputed : ℕ
  chunkResultsDiscarded : Bool
  assembled : Bool
  savedTiles : List (ℕ × ℕ × ℕ)
  checkpoint : Option (ℕ × ℕ × ℕ)
  exited : Bool
deriving DecidableEq

def strip_step (im_scale strip_idx strips_per_height nchunks max_level ntiles : ℕ)
    (obs : ℕ → List (Bool × Bool)) (save_after_loop save_after_assembly : Bool) :
    StripOutcome :=
  match (List.range nchunks).find? (fun j => wait_if_paused (obs j)) with
  | some j =>
      { chunksComputed := j + 1
        chunkResultsDiscarded := true
        assembled := false
        savedTiles := []
        checkpoint := some (im_scale, strip_idx, strips_per_height)
        exited := true }
  | none =>
      if save_after_loop then
        { chunksComputed := nchunks
          chunkResultsDiscarded := false
          assembled := true
          savedTiles := strip_tiles max_level strips_per_height strip_idx ntiles
          checkpoint := some (im_scale, strip_idx + 1, strips_per_height)
          exited := true }
      else if save_after_assembly then
        { chunksComputed := nchunks
          chunkResultsDiscarded := false
          assembled := true
          savedTiles := strip_tiles max_level strips_per_height strip_idx ntiles
          checkpoint := some (im_scale, strip_idx + 1, strips_per_height)
          exited := true }
      else
        { chunksComputed := nchunks
          chunkResultsDiscarded := false
          assembled := true
          savedTiles := strip_tiles max_level strips_per_height strip_idx ntiles
          checkpoint := none
          exited := false }

/-! ## Pyramid level geometry (mandelbrot.py lines 306-310)

```
scale = 2 ** (max_level - level)
level_width = max(1, int(math.ceil(width / scale)))
level_height = max(1, int(math.ceil(height / scale)))
```

`cdiv` is ceiling division on naturals. -/

def cdiv (a b : ℕ) : ℕ := (a + b - 1) / b

def get_level_dimensions (width height level max_level : ℕ) : ℕ × ℕ :=
  (max 1 (cdiv width (2 ^ (max_level - level))),
   max 1 (cdiv height (2 ^ (max_level - level))))

/-! ## Tiles directory setup (mandelbrot.py lines 375-382, 394-395)

```
if start_strip == 0:
    if os.path.exists(tiles_dir):
        shutil.rmtree(tiles_dir)
    os.makedirs(tiles_dir, exist_ok=True)
else:
    _log.info(...)
```

The tile files already persisted in the directory are modelled as a list of
`(level, col, row)` triples.  On a fresh start the directory is removed and
recreated empty; on resume the branch only logs, and the later
`os.makedirs(level_dir, exist_ok=True)` (line 395) creates a subdirectory
without touching any existing file. -/

def setup_tiles_dir (start_strip : ℕ) (existing : List (ℕ × ℕ × ℕ)) :
    List (ℕ × ℕ × ℕ) :=
  if start_strip = 0 then [] else existing

/-! ## Helper lemmas -/

/-- `nc` is exactly the ceiling `⌈nx / ncol⌉`. -/
theorem nc_eq_ceil (nx : ℕ) : nc nx = (nx + (ncol - 1)) / ncol := by
  unfold nc fx ncol
  have hdm := Nat.div_add_mod nx 64
  have hmlt : nx % 64 < 64 := Nat.mod_lt _ (by norm_num)
  rcases Nat.lt_or_ge (nx / 64 * 64) nx with hlt | hge
  · simp only [if_pos hlt]
    omega
  · simp only [if_neg (Nat.not_lt.mpr hge)]
    omega

/-! ## Claims -/

/-- C3: the claim asserts the chunk count is a constant independent of the
image width `W`.  In the source `ncol = 64` is the chunk *width* and the
chunk count is `nc = nx//64 + (nx//64*64 < nx)`, which grows with `nx`: at
scale 1 (`nx = 10240`) there are 160 chunks, at scale 2 (`nx = 20480`)
there are 320. -/
theorem C3_cex_chunk_count_depends_on_width :
    nc (nx_of_scale 1) = 160 ∧ nc (nx_of_scale 2) = 320 ∧
    nc (nx_of_scale 1) ≠ nc (nx_of_scale 2) := by
  refine ⟨?_, ?_, ?_⟩ <;> decide

/-- C3 (amended): the chunk grid is a fixed-width column partition: bands
of constant width `ncol = 64` (a tunable constant), the last possibly
narrower; the chunk count is `⌈W / ncol⌉` and so depends on the image
width `W`. -/
theorem C3_amended_fixed_width_bands (nx : ℕ) (h : 0 < nx) :
    nc nx = (nx + (ncol - 1)) / ncol ∧
    (∀ i, i + 1 < nc nx → ex nx i - bx nx i = ncol) ∧
    0 < ex nx (nc nx - 1) - bx nx (nc nx - 1) ∧
    ex nx (nc nx - 1) - bx nx (nc nx - 1) ≤ ncol := by
  have hnc := nc_eq_ceil nx
  simp only [ncol] at hnc ⊢
  refine ⟨hnc, ?_, ?_, ?_⟩
  · intro i hi
    rw [hnc] at hi
    simp only [ex, bx, ncol]
    omega
  · rw [hnc]
    simp only [ex, bx, ncol]
    omega
  · rw [hnc]
    simp only [ex, bx, ncol]
    omega

/-- C3 witness: the amended claim evaluated at `W = 100`: two bands, the
first of width 64 and the last of width 36. -/
theorem C3_amended_witness :
    0 < 100 ∧
    (nc 100 = (100 + (ncol - 1)) / ncol ∧
     (∀ i, i + 1 < nc 100 → ex 100 i - bx 100 i = ncol) ∧
     0 < ex 100 (nc 100 - 1) - bx 100 (nc 100 - 1) ∧
     ex 100 (nc 100 - 1) - bx 100 (nc 100 - 1) ≤ ncol) :=
  ⟨by decide, C3_amended_fixed_width_bands 100 (by decide)⟩

/-- C4: for every positive image width `W = nx` the chunk column ranges
`[bx[i], ex[i])`, `i < nc`, are each non-empty and within bounds, ordered
pairwise disjoint, and cover `[0, W)` exactly; and the feeder hands every
strip the identical chunk grid (the work items' index and column bounds do
not depend on the strip's row range). -/
theorem C4_chunk_partition (nx : ℕ) (_h : 0 < nx) :
    (∀ i, i < nc nx → bx nx i < ex nx i ∧ ex nx i ≤ nx) ∧
    (∀ i j, i < j → j < nc nx → ex nx i ≤ bx nx j) ∧
    (∀ k, k < nx → ∃ i, i < nc nx ∧ bx nx i ≤ k ∧ k < ex nx i) ∧
    (∀ y1 y2 y3 y4,
      (feeder nx y1 y2).map (fun c => (c.idx, c.x_lo, c.x_hi)) =
      (feeder nx y3 y4).map (fun c => (c.idx, c.x_lo, c.x_hi))) := by
  have hnc := nc_eq_ceil nx
  simp only [ncol] at hnc
  refine ⟨?_, ?_, ?_, ?_⟩
  · intro i hi
    rw [hnc] at hi
    simp only [bx, ex, ncol]
    omega
  · intro i j hij hj
    simp only [bx, ex, ncol]
    omega
  · intro k hk
    refine ⟨k / 64, ?_, ?_, ?_⟩
    · rw [hnc]; omega
    · simp only [bx, ncol]; omega
    · simp only [ex, ncol]; omega
  · intro y1 y2 y3 y4
    simp [feeder]

/-- C4 witness: the partition property evaluated at `W = 100`. -/
theorem C4_witness :
    0 < 100 ∧
    ((∀ i, i < nc 100 → bx 100 i < ex 100 i ∧ ex 100 i ≤ 100) ∧
     (∀ i j, i < j → j < nc 100 → ex 100 i ≤ bx 100 j) ∧
     (∀ k, k < 100 → ∃ i, i < nc 100 ∧ bx 100 i ≤ k ∧ k < ex 100 i) ∧
     (∀ y1 y2 y3 y4,
       (feeder 100 y1 y2).map (fun c => (c.idx, c.x_lo, c.x_hi)) =
       (feeder 100 y3 y4).map (fun c => (c.idx, c.x_lo, c.x_hi)))) :=
  ⟨by decide, C4_chunk_partition 100 (by decide)⟩

/-- C5: the worker's byte `np.clip((v / color_max) * 255, 0, 255)` (with
`uint8` truncation) equals the spec's `clamp(v / colorReference, 0, 1) × 255`
(same truncation); it is a valid table index; and every value strictly above
the color reference is looked up at the table's top entry, index 255. -/
theorem C5_worker_normalization (v : ℚ) (lut : ℕ → ℕ × ℕ × ℕ) :
    normByte v = normByteSpec v ∧
    normByte v ≤ 255 ∧
    (color_max < v → worker_pixel lut v = lut 255) := by
  have hcm : (0 : ℚ) < color_max := by norm_num [color_max, color_reference]
  have key : clip (v / color_max * 255) 0 255 = clip (v / color_max) 0 1 * 255 := by
    unfold clip
    rcases le_total (v / color_max) 0 with h0 | h0
    · have h1 : v / color_max * 255 ≤ 0 := by nlinarith
      rw [max_eq_right h1, max_eq_right h0]
      norm_num
    · have h1 : (0 : ℚ) ≤ v / color_max * 255 := by nlinarith
      rw [max_eq_left h1, max_eq_left h0]
      rcases le_total (v / color_max) 1 with h2 | h2
      · rw [min_eq_left (by nlinarith : v / color_max * 255 ≤ 255), min_eq_left h2]
      · rw [min_eq_right (by nlinarith : (255 : ℚ) ≤ v / color_max * 255),
            min_eq_right h2]
        norm_num
  refine ⟨?_, ?_, ?_⟩
  · unfold normByte normByteSpec
    rw [key]
  · unfold normByte
    have h2 : clip (v / color_max * 255) 0 255 ≤ 255 := min_le_right _ _
    have h3 : ⌊clip (v / color_max * 255) 0 255⌋ ≤ (255 : ℤ) := by
      calc ⌊clip (v / color_max * 255) 0 255⌋ ≤ ⌊(255 : ℚ)⌋ := Int.floor_le_floor h2
        _ = 255 := by norm_num
    calc (⌊clip (v / color_max * 255) 0 255⌋).toNat ≤ ((255 : ℤ)).toNat :=
          Int.toNat_le_toNat h3
      _ = 255 := rfl
  · intro hv
    unfold worker_pixel
    congr 1
    unfold normByte
    have h1 : (1 : ℚ) < v / color_max := (one_lt_div hcm).mpr hv
    have h2 : (255 : ℚ) ≤ v / color_max * 255 := by nlinarith
    unfold clip
    rw [max_eq_left (by linarith : (0 : ℚ) ≤ v / color_max * 255), min_eq_right h2]
    norm_num
    rfl

/-- C5 witness: `v = 150` is strictly above the color reference 100 and maps
to the table's top entry. -/
theorem C5_witness :
    color_max < 150 ∧
    worker_pixel (fun n => (n, n, n)) 150 = (fun n => (n, n, n)) 255 :=
  ⟨by norm_num [color_max, color_reference],
   (C5_worker_normalization 150 (fun n => (n, n, n))).2.2
     (by norm_num [color_max, color_reference])⟩

/-- C1: false as stated.  With a save request observed while paused after
chunk 0 of a strip of 2 chunks (`wait_if_paused` returning true inside the
chunk loop, lines 435-451), the pipeline terminates the workers, deletes the
already-computed chunk result without assembling the strip, persists no
tile, writes the checkpoint with the *current* strip index and exits — the
in-flight strip is discarded, not completed. -/
theorem C1_cex_save_discards_in_flight_strip :
    wait_if_paused ((fun _ => [(true, true)]) 0) = true ∧
    (strip_step 4 3 30 2 17 160 (fun _ => [(true, true)]) false false).exited = true ∧
    (strip_step 4 3 30 2 17 160 (fun _ => [(true, true)]) false false).checkpoint
      = some (4, 3, 30) ∧
    (strip_step 4 3 30 2 17 160 (fun _ => [(true, true)]) false false).chunksComputed = 1 ∧
    (strip_step 4 3 30 2 17 160 (fun _ => [(true, true)]) false false).chunkResultsDiscarded
      = true ∧
    (strip_step 4 3 30 2 17 160 (fun _ => [(true, true)]) false false).assembled = false ∧
    (strip_step 4 3 30 2 17 160 (fun _ => [(true, true)]) false false).savedTiles = [] := by
  decide

/-- C1 (amended): a save request observed by `wait_if_paused` inside the
chunk loop discards the in-flight strip's already-computed chunk results
(no assembly, no tiles) and checkpoints the *current* strip index, so the
whole strip is recomputed on resume; only a save request first observed
after all chunk results were collected (line 456) completes the strip —
assembly, flip, tiling, persistence — before checkpointing `strip_idx + 1`
and exiting. -/
theorem C1_amended_save_paths
    (im_scale strip_idx strips_per_height nchunks max_level ntiles j : ℕ)
    (obs : ℕ → List (Bool × Bool)) (sal saa : Bool) :
    ((List.range nchunks).find? (fun i => wait_if_paused (obs i)) = some j →
      (strip_step im_scale strip_idx strips_per_height nchunks max_level ntiles obs sal saa).assembled = false ∧
      (strip_step im_scale strip_idx strips_per_height nchunks max_level ntiles obs sal saa).chunkResultsDiscarded = true ∧
      (strip_step im_scale strip_idx strips_per_height nchunks max_level ntiles obs sal saa).chunksComputed = j + 1 ∧
      (strip_step im_scale strip_idx strips_per_height nchunks max_level ntiles obs sal saa).savedTiles = [] ∧
      (strip_step im_scale strip_idx strips_per_height nchunks max_level ntiles obs sal saa).checkpoint = some (im_scale, strip_idx, strips_per_height) ∧
      (strip_step im_scale strip_idx strips_per_height nchunks max_level ntiles obs sal saa).exited = true) ∧
    ((List.range nchunks).find? (fun i => wait_if_paused (obs i)) = none → sal = true →
      (strip_step im_scale strip_idx strips_per_height nchunks max_level ntiles obs sal saa).chunksComputed = nchunks ∧
      (strip_step im_scale strip_idx strips_per_height nchunks max_level ntiles obs sal saa).chunkResultsDiscarded = false ∧
      (strip_step im_scale strip_idx strips_per_height nchunks max_level ntiles obs sal saa).assembled = true ∧
      (strip_step im_scale strip_idx strips_per_height nchunks max_level ntiles obs sal saa).savedTiles = strip_tiles max_level strips_per_height strip_idx ntiles ∧
      (strip_step im_scale strip_idx strips_per_height nchunks max_level ntiles obs sal saa).checkpoint = some (im_scale, strip_idx + 1, strips_per_height) ∧
      (strip_step im_scale strip_idx strips_per_height nchunks max_level ntiles obs sal saa).exited = true) := by
  constructor
  · intro hfind
    simp [strip_step, hfind]
  · intro hfind hsal
    subst hsal
    simp [strip_step, hfind]

/-- C1 witness: both amended branches at concrete inputs: a save observed at
chunk 0 checkpoints strip 3 itself; a save first observed after the chunk
loop checkpoints strip 4 with the strip assembled. -/
theorem C1_amended_witness :
    (List.range 2).find? (fun i => wait_if_paused ((fun _ => [(true, true)]) i)) = some 0 ∧
    (strip_step 4 3 30 2 17 160 (fun _ => [(true, true)]) false false).checkpoint
      = some (4, 3, 30) ∧
    (strip_step 4 3 30 2 17 160 (fun _ => []) true false).checkpoint = some (4, 3 + 1, 30) ∧
    (strip_step 4 3 30 2 17 160 (fun _ => []) true false).assembled = true :=
  ⟨by decide,
   ((C1_amended_save_paths 4 3 30 2 17 160 0 (fun _ => [(true, true)]) false false).1
      (by decide)).2.2.2.2.1,
   ((C1_amended_save_paths 4 3 30 2 17 160 0 (fun _ => []) true false).2
      (by decide) rfl).2.2.2.2.1,
   ((C1_amended_save_paths 4 3 30 2 17 160 0 (fun _ => []) true false).2
      (by decide) rfl).2.2.1⟩

/-- C2: false as stated.  `save_progress` first deletes the existing
checkpoint file and only then rewrites it, so during a save over an
existing complete record the durable storage passes through the state
`absent` — which is neither the complete previous record nor the complete
new one — and through a truncated (partially written) state. -/
theorem C2_cex_save_not_replace_on_write :
    CheckpointFile.absent ∈
      save_progress_trace (CheckpointFile.complete ⟨4, 3, 30, 750, 100⟩)
        ⟨4, 4, 30, 750, 100⟩ ∧
    CheckpointFile.absent ≠ CheckpointFile.complete ⟨4, 3, 30, 750, 100⟩ ∧
    CheckpointFile.absent ≠ CheckpointFile.complete ⟨4, 4, 30, 750, 100⟩ ∧
    CheckpointFile.truncated ∈
      save_progress_trace (CheckpointFile.complete ⟨4, 3, 30, 750, 100⟩)
        ⟨4, 4, 30, 750, 100⟩ := by
  decide

/-- C2 (amended): a checkpoint save is remove-then-rewrite, not an atomic
replace: every save passes through a no-record durable state and a
truncated durable state; the trace starts at the previous state and its
final durable state is always the complete new record. -/
theorem C2_amended_remove_then_rewrite (old : CheckpointFile) (r : ProgressData) :
    CheckpointFile.absent ∈ save_progress_trace old r ∧
    CheckpointFile.truncated ∈ save_progress_trace old r ∧
    (save_progress_trace old r).head? = some old ∧
    (save_progress_trace old r).getLast? = some (CheckpointFile.complete r) := by
  unfold save_progress_trace
  by_cases h : old = CheckpointFile.absent
  · subst h
    refine ⟨by simp, by simp, by simp, rfl⟩
  · refine ⟨by simp [h], by simp [h], by simp [h], ?_⟩
    simp only [if_neg h]
    rfl

/-- C6: whenever the chunk loop of strip `strip_idx` completes with no save
observed, the tiles persisted for that strip — on the save-finalization
path (`save_after_loop = true`) and on the normal path alike — are exactly
the base-level tiles `(max_level, c, strips_per_height - 1 - strip_idx)`
for `c < ntiles`; and strip index 0 maps to the bottom-most tile row
`strips_per_height - 1`. -/
theorem C6_tile_row_bottom_up
    (im_scale strip_idx strips_per_height nchunks max_level ntiles : ℕ)
    (obs : ℕ → List (Bool × Bool)) (sal saa : Bool)
    (hdone : (List.range nchunks).find? (fun i => wait_if_paused (obs i)) = none) :
    (strip_step im_scale strip_idx strips_per_height nchunks max_level ntiles obs sal saa).savedTiles
      = (List.range ntiles).map
          (fun c => (max_level, c, strips_per_height - 1 - strip_idx)) ∧
    tile_row strips_per_height 0 = strips_per_height - 1 := by
  constructor
  · simp only [strip_step, hdone]
    split_ifs <;> simp [strip_tiles, tile_row]
  · simp [tile_row]

/-- C6 witness: strip 0 of 30 strips, 160 tiles wide, persists its tiles at
the bottom-most tile row 29, on the save-finalization path. -/
theorem C6_witness :
    (List.range 2).find? (fun i => wait_if_paused ((fun _ => []) i)) = none ∧
    ((strip_step 4 0 30 2 17 160 (fun _ => []) true false).savedTiles
        = (List.range 160).map (fun c => (17, c, 30 - 1 - 0)) ∧
     tile_row 30 0 = 30 - 1) :=
  ⟨by decide,
   C6_tile_row_bottom_up 4 0 30 2 17 160 (fun _ => []) true false (by decide)⟩

/-- C7: `load_progress` returns the checkpoint record exactly when the file
is present and parses to a record; an absent, unreadable or malformed file
yields `none`.  The model is a total function — the bare `except:` in the
source means no read outcome raises or aborts the process. -/
theorem C7_load_progress_total_iff (f : SaveFileRead) (r : ProgressData) :
    (load_progress f = some r ↔ f = SaveFileRead.parsed r) ∧
    load_progress SaveFileRead.absent = none ∧
    load_progress SaveFileRead.unreadable = none ∧
    load_progress SaveFileRead.malformed = none := by
  refine ⟨?_, rfl, rfl, rfl⟩
  cases f <;> simp [load_progress]

/-- C7 witness: a file parsing to a concrete record is returned as such,
and every failure mode yields `none`. -/
theorem C7_witness :
    (load_progress (SaveFileRead.parsed ⟨4, 3, 30, 750, 100⟩)
        = some ⟨4, 3, 30, 750, 100⟩ ↔
      SaveFileRead.parsed ⟨4, 3, 30, 750, 100⟩
        = SaveFileRead.parsed (⟨4, 3, 30, 750, 100⟩ : ProgressData)) ∧
    load_progress SaveFileRead.absent = none ∧
    load_progress SaveFileRead.unreadable = none ∧
    load_progress SaveFileRead.malformed = none :=
  C7_load_progress_total_iff (SaveFileRead.parsed ⟨4, 3, 30, 750, 100⟩)
    ⟨4, 3, 30, 750, 100⟩

/-- C8: from any non-terminated state, a first exit command arms the exit
(`exit_confirm := true`, forcing `paused := true`) without terminating; a
pause command received while armed cancels the exit (`exit_confirm :=
false`) and returns to a normal running state without terminating; and a
transition terminates the process only on an exit command while already
armed, or on the interrupt key. -/
theorem C8_exit_arming_cancelled_by_pause (st : CtlState) (k : Key)
    (hterm : st.terminated = false) :
    (st.exit_confirm = false →
      (input_listener_step st Key.e).exit_confirm = true ∧
      (input_listener_step st Key.e).paused = true ∧
      (input_listener_step st Key.e).terminated = false ∧
      (input_listener_step (input_listener_step st Key.e) Key.p).exit_confirm = false ∧
      (input_listener_step (input_listener_step st Key.e) Key.p).paused = false ∧
      (input_listener_step (input_listener_step st Key.e) Key.p).terminated = false) ∧
    ((input_listener_step st k).terminated = true →
      (k = Key.e ∧ st.exit_confirm = true) ∨ k = Key.ctrlC) := by
  obtain ⟨p, ec, sr, t⟩ := st
  revert hterm
  cases p <;> cases ec <;> cases sr <;> cases t <;> cases k <;> decide

/-- C8 witness: from the initial running state, exit then pause leaves the
control state unarmed, running and alive. -/
theorem C8_witness :
    (input_listener_step (input_listener_step ⟨false, false, false, false⟩ Key.e)
        Key.p).exit_confirm = false ∧
    (input_listener_step (input_listener_step ⟨false, false, false, false⟩ Key.e)
        Key.p).paused = false ∧
    (input_listener_step (input_listener_step ⟨false, false, false, false⟩ Key.e)
        Key.p).terminated = false :=
  ⟨((C8_exit_arming_cancelled_by_pause ⟨false, false, false, false⟩ Key.p rfl).1
      rfl).2.2.2.1,
   ((C8_exit_arming_cancelled_by_pause ⟨false, false, false, false⟩ Key.p rfl).1
      rfl).2.2.2.2.1,
   ((C8_exit_arming_cancelled_by_pause ⟨false, false, false, false⟩ Key.p rfl).1
      rfl).2.2.2.2.2⟩

/-- Ceiling division written with a predecessor, for positive arguments. -/
theorem cdiv_eq_succ (a b : ℕ) (ha : 0 < a) (hb : 0 < b) :
    cdiv a b = (a - 1) / b + 1 := by
  unfold cdiv
  have h : a + b - 1 = (a - 1) + b := by omega
  rw [h, Nat.add_div_right _ hb]

/-- Halving a ceiling-divided positive quantity composes:
`⌈⌈a / 2^k⌉ / 2⌉ = ⌈a / 2^(k+1)⌉`. -/
theorem cdiv_cdiv_two (a k : ℕ) (ha : 0 < a) :
    cdiv (cdiv a (2 ^ k)) 2 = cdiv a (2 ^ (k + 1)) := by
  have hk : (0 : ℕ) < 2 ^ k := pow_pos (by norm_num) k
  have hk1 : (0 : ℕ) < 2 ^ (k + 1) := pow_pos (by norm_num) (k + 1)
  have h1 : cdiv a (2 ^ k) = (a - 1) / 2 ^ k + 1 := cdiv_eq_succ a _ ha hk
  have h2 : cdiv a (2 ^ (k + 1)) = (a - 1) / 2 ^ (k + 1) + 1 := cdiv_eq_succ a _ ha hk1
  have h3 : cdiv (cdiv a (2 ^ k)) 2 = (cdiv a (2 ^ k) - 1) / 2 + 1 :=
    cdiv_eq_succ _ 2 (by rw [h1]; exact Nat.succ_pos _) (by norm_num)
  rw [h3, h1, h2, Nat.add_sub_cancel, Nat.div_div_eq_div_mul, ← pow_succ]

/-- C9: for every positive resolution and level `L < max_level`, the level
dimensions computed by `get_level_dimensions` satisfy
`dim(L) = ceil(dim(L+1) / 2)` componentwise, and `dim(max_level) = (W, H)`. -/
theorem C9_level_dimensions (W H L max_level : ℕ)
    (hW : 0 < W) (hH : 0 < H) (hL : L < max_level) :
    get_level_dimensions W H L max_level
      = (cdiv (get_level_dimensions W H (L + 1) max_level).1 2,
         cdiv (get_level_dimensions W H (L + 1) max_level).2 2) ∧
    get_level_dimensions W H max_level max_level = (W, H) := by
  have hmax : ∀ a b : ℕ, 0 < a → 0 < b → max 1 (cdiv a b) = cdiv a b := by
    intro a b ha hb
    rw [cdiv_eq_succ a b ha hb]
    exact max_eq_right (Nat.succ_le_succ (Nat.zero_le _))
  constructor
  · have hk : max_level - L = (max_level - (L + 1)) + 1 := by omega
    unfold get_level_dimensions
    dsimp only
    rw [hk]
    rw [hmax W _ hW (pow_pos (by norm_num) _), hmax H _ hH (pow_pos (by norm_num) _),
        hmax W _ hW (pow_pos (by norm_num) _), hmax H _ hH (pow_pos (by norm_num) _)]
    rw [cdiv_cdiv_two W _ hW, cdiv_cdiv_two H _ hH]
  · unfold get_level_dimensions cdiv
    simp only [Nat.sub_self, pow_zero, Prod.mk.injEq]
    constructor <;> omega

/-- C9 witness: the spec's concrete scenario `W = 1024`, `H = 768`,
`max_level = 10`, at `L = 9`. -/
theorem C9_witness :
    (0 < 1024 ∧ 0 < 768 ∧ 9 < 10) ∧
    (get_level_dimensions 1024 768 9 10
        = (cdiv (get_level_dimensions 1024 768 (9 + 1) 10).1 2,
           cdiv (get_level_dimensions 1024 768 (9 + 1) 10).2 2) ∧
     get_level_dimensions 1024 768 10 10 = (1024, 768)) :=
  ⟨⟨by decide, by decide, by decide⟩,
   C9_level_dimensions 1024 768 9 10 (by decide) (by decide) (by decide)⟩

/-- C10: a fresh start (`start_strip = 0`) deletes the whole existing tiles
directory and recreates it empty before any work; a resumed run
(`start_strip > 0`) leaves the directory and every already persisted tile
file unchanged. -/
theorem C10_tiles_dir_setup (start_strip : ℕ) (existing : List (ℕ × ℕ × ℕ)) :
    (start_strip = 0 → setup_tiles_dir start_strip existing = []) ∧
    (0 < start_strip →
      setup_tiles_dir start_strip existing = existing ∧
      ∀ t ∈ existing, t ∈ setup_tiles_dir start_strip existing) := by
  unfold setup_tiles_dir
  constructor
  · intro h
    simp [h]
  · intro h
    have hne : ¬ start_strip = 0 := by omega
    simp [hne]

/-- C10 witness: a fresh start wipes two persisted tiles; resuming from
strip 5 preserves them. -/
theorem C10_witness :
    setup_tiles_dir 0 [(10, 0, 1), (10, 1, 1)] = [] ∧
    setup_tiles_dir 5 [(10, 0, 1), (10, 1, 1)] = [(10, 0, 1), (10, 1, 1)] :=
  ⟨(C10_tiles_dir_setup 0 [(10, 0, 1), (10, 1, 1)]).1 rfl,
   ((C10_tiles_dir_setup 5 [(10, 0, 1), (10, 1, 1)]).2 (by decide)).1⟩

end Mandelbrot
